import Mathlib

/-!
Verification of the symbolic-expression engine (`MathExpression.h`) and the
function layer (`MathFunction.h`) of the repository.  The C++ classes
`Constant`, `Variable`, `Sum`, `Product`, `Power`, `Sin`, `Cos`, `Exp`, `Ln`
(all deriving from the abstract `MathExpression`) form a closed set of node
kinds; here they become the constructors of one inductive type, and the four
virtual operations `evaluate`, `toString`, `derivative`, `clone` become
recursive functions on it.  C++ `double` values are idealised as real numbers.
-/

set_option maxHeartbeats 1000000

/-- The expression tree.  One constructor per C++ node class; the payloads
are exactly the C++ data members (`double value` of `Constant`, the two
children of `Sum`/`Product`, the base child and `double exponent` of `Power`,
the single argument child of the four transcendental nodes). -/
inductive MathExpression : Type where
  | Constant (value : ℝ)
  | Variable
  | Sum (left right : MathExpression)
  | Product (left right : MathExpression)
  | Power (base : MathExpression) (exponent : ℝ)
  | Sin (arg : MathExpression)
  | Cos (arg : MathExpression)
  | Exp (arg : MathExpression)
  | Ln (arg : MathExpression)

namespace MathExpression

/-- `evaluate`: the virtual `double evaluate(double x)` of each node class.
`std::pow` becomes real exponentiation `Real.rpow`, `std::sin` / `std::cos` /
`std::exp` / `std::log` become the corresponding real functions. -/
noncomputable def evaluate : MathExpression → ℝ → ℝ
  | Constant v, _ => v
  | Variable, x => x
  | Sum l r, x => evaluate l x + evaluate r x
  | Product l r, x => evaluate l x * evaluate r x
  | Power b e, x => evaluate b x ^ e
  | Sin a, x => Real.sin (evaluate a x)
  | Cos a, x => Real.cos (evaluate a x)
  | Exp a, x => Real.exp (evaluate a x)
  | Ln a, x => Real.log (evaluate a x)

/-- `clone`: the virtual `clone()` of each node class, which rebuilds the node
with cloned children (a deep copy). -/
def clone : MathExpression → MathExpression
  | Constant v => Constant v
  | Variable => Variable
  | Sum l r => Sum (clone l) (clone r)
  | Product l r => Product (clone l) (clone r)
  | Power b e => Power (clone b) e
  | Sin a => Sin (clone a)
  | Cos a => Cos (clone a)
  | Exp a => Exp (clone a)
  | Ln a => Ln (clone a)

/-- `derivative`: the virtual `derivative()` of each node class, transcribed
case by case from `MathExpression.h`. -/
def derivative : MathExpression → MathExpression
  | Constant _ => Constant 0
  | Variable => Constant 1
  | Sum l r => Sum (derivative l) (derivative r)
  | Product l r =>
      Sum (Product (derivative l) (clone r)) (Product (clone l) (derivative r))
  | Power b e =>
      Product (Product (Constant e) (Power (clone b) (e - 1))) (derivative b)
  | Sin a => Product (Cos (clone a)) (derivative a)
  | Cos a => Product (Product (Constant (-1)) (Sin (clone a))) (derivative a)
  | Exp a => Product (Exp (clone a)) (derivative a)
  | Ln a => Product (derivative a) (Power (clone a) (-1))

/-- `toString`: the virtual `toString()` of each node class.  The rendering of
a `double` through `std::ostringstream` (used by `Constant` for its value and
by `Power` for its exponent) is abstracted as a parameter `ρ : ℝ → String`;
everything else is the literal string assembly of the source. -/
def render (ρ : ℝ → String) : MathExpression → String
  | Constant v => ρ v
  | Variable => "x"
  | Sum l r => "(" ++ render ρ l ++ " + " ++ render ρ r ++ ")"
  | Product l r => "(" ++ render ρ l ++ " * " ++ render ρ r ++ ")"
  | Power b e => "(" ++ render ρ b ++ ")^" ++ ρ e
  | Sin a => "sin(" ++ render ρ a ++ ")"
  | Cos a => "cos(" ++ render ρ a ++ ")"
  | Exp a => "exp(" ++ render ρ a ++ ")"
  | Ln a => "ln(" ++ render ρ a ++ ")"

/-- In the value semantics, a deep copy is the identity on the tree. -/
theorem clone_eq (e : MathExpression) : clone e = e := by
  induction e <;> simp [clone, *]

end MathExpression

open MathExpression

/-- The derivative marker appended to a function name by
`MathFunction::derivative` (the C++ string literal holding the single
ASCII apostrophe, character code 39). -/
def tick : String := String.singleton (Char.ofNat 39)

/-- `MathFunction`: a named wrapper around an expression, mirroring the two
data members `std::shared_ptr<MathExpression> expression` and
`std::string name`. -/
structure MathFunction : Type where
  expression : MathExpression
  name : String

namespace MathFunction

/-- `MathFunction::evaluate`, which delegates to the expression. -/
noncomputable def evaluate (F : MathFunction) (x : ℝ) : ℝ :=
  F.expression.evaluate x

/-- `MathFunction::derivative`: wraps the differentiated expression and
appends one derivative marker to the name. -/
def derivative (F : MathFunction) : MathFunction :=
  ⟨F.expression.derivative, F.name ++ tick⟩

/-- The loop `for (int i = 1; i < n; ++i) result = result->derivative();`
of `nthDerivative`: applies `derivative` to the accumulated expression the
given number of further times. -/
def derivLoop : ℕ → MathExpression → MathExpression
  | 0, r => r
  | k + 1, r => derivLoop k r.derivative

/-- The loop `for (int i = 0; i < n; ++i) newName += "'";` of
`nthDerivative`: appends one derivative marker per step. -/
def tickLoop : String → ℕ → String
  | s, 0 => s
  | s, k + 1 => tickLoop (s ++ tick) k

/-- `MathFunction::nthDerivative`.  The C++ `int n` is modelled as `ℤ`; the
`throw std::invalid_argument` becomes the `Except.error` branch. -/
def nthDerivative (F : MathFunction) (n : ℤ) : Except String MathFunction :=
  if n < 0 then Except.error "Derivative order must be non-negative"
  else if n = 0 then Except.ok ⟨F.expression.clone, F.name⟩
  else Except.ok ⟨derivLoop (n.toNat - 1) F.expression.derivative, tickLoop F.name n.toNat⟩

/-- The loop `for (int i = 1; i < steps; ++i) sum += evaluate(a + i * h);`
of `integrate`, as the partial sums `S k = Σ_{i=1}^{k} f(a + i h)`. -/
noncomputable def trapLoop (f : ℝ → ℝ) (a h : ℝ) : ℕ → ℝ
  | 0 => 0
  | k + 1 => trapLoop f a h k + f (a + (k + 1 : ℕ) * h)

/-- `MathFunction::integrate`: composite trapezoidal rule; `steps <= 0`
throws `std::invalid_argument`, modelled as the `Except.error` branch. -/
noncomputable def integrate (F : MathFunction) (a b : ℝ) (steps : ℤ) : Except String ℝ :=
  if steps ≤ 0 then Except.error "Steps must be positive"
  else
    ((0.5 * (F.evaluate a + F.evaluate b)
        + trapLoop F.evaluate a ((b - a) / (steps : ℝ)) (steps.toNat - 1))
      * ((b - a) / (steps : ℝ))) |> Except.ok

/-- The body of `taylorSeries`: first argument is the number of remaining
iterations (`terms - i`), then the current index `i`, the running `factorial`
accumulator and the running function's expression.  Exactly as in the source,
the accumulator is multiplied by `i` only when `i > 0`, the coefficient is the
current evaluation divided by the updated accumulator, and the running
expression is differentiated only when another iteration follows. -/
noncomputable def taylorLoop (point : ℝ) : ℕ → ℕ → ℝ → MathExpression → List ℝ
  | 0, _, _, _ => []
  | rem + 1, i, fact, e =>
      let fact' := if 0 < i then fact * (i : ℝ) else fact
      (e.evaluate point / fact') ::
        taylorLoop point rem (i + 1) fact' (if 0 < rem then e.derivative else e)

/-- `MathFunction::taylorSeries` (the C++ `int terms` is modelled as `ℤ`;
the loop `for (int i = 0; i < terms; ++i)` runs `terms.toNat` times). -/
noncomputable def taylorSeries (F : MathFunction) (point : ℝ) (terms : ℤ) : List ℝ :=
  taylorLoop point terms.toNat 0 1 F.expression

/-- `MathFunction::tabulate`.  The step is `(end - start) / (points - 1)` and
the loop pushes `points` pairs `(x, f(x))` with `x = start + i * step`.  The
codomain is `Except` like the other function-layer operations so that the
absence of any raised failure in this method is visible in the result. -/
noncomputable def tabulate (F : MathFunction) (start stop : ℝ) (points : ℤ) :
    Except String (List (ℝ × ℝ)) :=
  let step := (stop - start) / ((points - 1 : ℤ) : ℝ)
  Except.ok ((List.range points.toNat).map fun i =>
    (start + (i : ℝ) * step, F.evaluate (start + (i : ℝ) * step)))

end MathFunction

/-- The three ways `MathFunction::findRoot` can terminate: returning a root,
throwing `std::runtime_error("Derivative too small")`, or throwing
`std::runtime_error("Root finding did not converge")`. -/
inductive RootResult : Type where
  | ok (x : ℝ)
  | derivativeTooSmall
  | didNotConverge

/-- One Newton update `xNew = x - fx / dfx` from the body of `findRoot`. -/
noncomputable def newtonStep (f df : ℝ → ℝ) (x : ℝ) : ℝ :=
  x - f x / df x

/-- The loop `for (int i = 0; i < maxIterations; ++i)` of `findRoot`, by the
number of remaining iterations: check `|f'(x)| < tolerance` (throw
DerivativeTooSmall), then `|xNew - x| < tolerance` (return `xNew`), else
continue from `xNew`; a loop that runs out throws DidNotConverge. -/
noncomputable def findRootAux (f df : ℝ → ℝ) (tol : ℝ) : ℕ → ℝ → RootResult
  | 0, _ => RootResult.didNotConverge
  | n + 1, x =>
      if |df x| < tol then RootResult.derivativeTooSmall
      else if |newtonStep f df x - x| < tol then RootResult.ok (newtonStep f df x)
      else findRootAux f df tol n (newtonStep f df x)

namespace MathFunction

/-- `MathFunction::findRoot`: Newton iteration from the initial guess, using
the analytic derivative (`auto deriv = derivative();`).  The C++
`int maxIterations` is modelled as `ℤ`; the loop runs `max(maxIterations, 0)`
times. -/
noncomputable def findRoot (F : MathFunction) (initialGuess tol : ℝ)
    (maxIterations : ℤ) : RootResult :=
  findRootAux F.evaluate F.derivative.evaluate tol maxIterations.toNat initialGuess

end MathFunction

/-- The sequence of Newton iterates visited by `findRoot`:
`x_0` is the initial guess and `x_{k+1} = x_k - f(x_k)/f'(x_k)`. -/
noncomputable def newtonSeq (f df : ℝ → ℝ) (x0 : ℝ) : ℕ → ℝ
  | 0 => x0
  | k + 1 => newtonStep f df (newtonSeq f df x0 k)

/-- The derivative-too-small stopping condition of iteration `k` of
`findRoot`: `|f'(x_k)| < tolerance`. -/
noncomputable def derivSmallAt (f df : ℝ → ℝ) (tol x0 : ℝ) (k : ℕ) : Prop :=
  |df (newtonSeq f df x0 k)| < tol

/-- The successful stopping condition of iteration `k` of `findRoot`:
`|x_{k+1} - x_k| < tolerance`. -/
noncomputable def stepSmallAt (f df : ℝ → ℝ) (tol x0 : ℝ) (k : ℕ) : Prop :=
  |newtonSeq f df x0 (k + 1) - newtonSeq f df x0 k| < tol

/-- Unfolding: an exhausted budget throws DidNotConverge. -/
theorem findRootAux_zero (f df : ℝ → ℝ) (tol x : ℝ) :
    findRootAux f df tol 0 x = RootResult.didNotConverge := rfl

/-- Unfolding: one loop iteration of `findRoot`. -/
theorem findRootAux_succ (f df : ℝ → ℝ) (tol : ℝ) (n : ℕ) (x : ℝ) :
    findRootAux f df tol (n + 1) x =
      if |df x| < tol then RootResult.derivativeTooSmall
      else if |newtonStep f df x - x| < tol then RootResult.ok (newtonStep f df x)
      else findRootAux f df tol n (newtonStep f df x) := rfl

/-- Starting the Newton iterate sequence one step later shifts its index. -/
theorem newtonSeq_shift (f df : ℝ → ℝ) (x0 : ℝ) (k : ℕ) :
    newtonSeq f df (newtonStep f df x0) k = newtonSeq f df x0 (k + 1) := by
  induction k with
  | zero => rfl
  | succ k ih => rw [newtonSeq, ih]; rfl

/-- The derivative-too-small condition, shifted along one Newton step. -/
theorem derivSmallAt_shift (f df : ℝ → ℝ) (tol x0 : ℝ) (k : ℕ) :
    derivSmallAt f df tol (newtonStep f df x0) k = derivSmallAt f df tol x0 (k + 1) := by
  unfold derivSmallAt
  rw [newtonSeq_shift]

/-- The step-size condition, shifted along one Newton step. -/
theorem stepSmallAt_shift (f df : ℝ → ℝ) (tol x0 : ℝ) (k : ℕ) :
    stepSmallAt f df tol (newtonStep f df x0) k = stepSmallAt f df tol x0 (k + 1) := by
  unfold stepSmallAt
  simp only [newtonSeq_shift]

/-- Characterisation of the `findRoot` loop for an arbitrary iteration budget:
it throws DerivativeTooSmall exactly when some reached iteration `k` finds
`|f'(x_k)| < tol`; it returns `y` exactly when some reached iteration passes
the derivative check and finds `|x_{k+1} - x_k| < tol`, with `y = x_{k+1}`;
and it throws DidNotConverge exactly when no iteration below the budget
triggers either condition. -/
theorem findRootAux_outcomes (f df : ℝ → ℝ) (tol : ℝ) (n : ℕ) :
    ∀ x0 : ℝ,
      (findRootAux f df tol n x0 = RootResult.derivativeTooSmall ↔
        ∃ k, k < n ∧
          (∀ j, j < k → ¬ derivSmallAt f df tol x0 j ∧ ¬ stepSmallAt f df tol x0 j) ∧
          derivSmallAt f df tol x0 k) ∧
      (∀ y, findRootAux f df tol n x0 = RootResult.ok y ↔
        ∃ k, k < n ∧
          (∀ j, j < k → ¬ derivSmallAt f df tol x0 j ∧ ¬ stepSmallAt f df tol x0 j) ∧
          ¬ derivSmallAt f df tol x0 k ∧ stepSmallAt f df tol x0 k ∧
          y = newtonSeq f df x0 (k + 1)) ∧
      (findRootAux f df tol n x0 = RootResult.didNotConverge ↔
        ∀ k, k < n → ¬ derivSmallAt f df tol x0 k ∧ ¬ stepSmallAt f df tol x0 k) := by
  induction n with
  | zero =>
      intro x0
      refine ⟨by simp [findRootAux], fun y => by simp [findRootAux], by simp [findRootAux]⟩
  | succ n ih =>
      intro x0
      obtain ⟨ihD, ihOk, ihN⟩ := ih (newtonStep f df x0)
      have hshiftD := derivSmallAt_shift f df tol x0
      have hshiftS := stepSmallAt_shift f df tol x0
      by_cases hD : |df x0| < tol
      · simp only [findRootAux_succ, if_pos hD]
        refine ⟨?_, ?_, ?_⟩
        · constructor
          · intro _
            exact ⟨0, Nat.succ_pos n, fun j hj => absurd hj (Nat.not_lt_zero j), hD⟩
          · intro _
            trivial
        · intro y
          constructor
          · intro h
            exact RootResult.noConfusion h
          · rintro ⟨k, hk, hact, hnD, hSk, hy⟩
            cases k with
            | zero => exact absurd hD hnD
            | succ k => exact absurd hD ((hact 0 (Nat.succ_pos k)).1)
        · constructor
          · intro h
            exact RootResult.noConfusion h
          · intro hall
            exact absurd hD (hall 0 (Nat.succ_pos n)).1
      · by_cases hS : |newtonStep f df x0 - x0| < tol
        · simp only [findRootAux_succ, if_neg hD, if_pos hS]
          refine ⟨?_, ?_, ?_⟩
          · constructor
            · intro h
              exact RootResult.noConfusion h
            · rintro ⟨k, hk, hact, hDk⟩
              cases k with
              | zero => exact absurd hDk hD
              | succ k => exact absurd hS ((hact 0 (Nat.succ_pos k)).2)
          · intro y
            constructor
            · intro h
              have hy : newtonStep f df x0 = y := by injection h
              exact ⟨0, Nat.succ_pos n, fun j hj => absurd hj (Nat.not_lt_zero j),
                hD, hS, hy.symm⟩
            · rintro ⟨k, hk, hact, hnD, hSk, hy⟩
              cases k with
              | zero =>
                  rw [hy]
                  rfl
              | succ k => exact absurd hS ((hact 0 (Nat.succ_pos k)).2)
          · constructor
            · intro h
              exact RootResult.noConfusion h
            · intro hall
              exact absurd hS (hall 0 (Nat.succ_pos n)).2
        · simp only [findRootAux_succ, if_neg hD, if_neg hS]
          refine ⟨?_, ?_, ?_⟩
          · rw [ihD]
            constructor
            · rintro ⟨k, hk, hact, hDk⟩
              refine ⟨k + 1, by omega, ?_, ?_⟩
              · intro j hj
                cases j with
                | zero => exact ⟨hD, hS⟩
                | succ j =>
                    have hj' := hact j (by omega)
                    rw [hshiftD j, hshiftS j] at hj'
                    exact hj'
              · rw [← hshiftD k]
                exact hDk
            · rintro ⟨k, hk, hact, hDk⟩
              cases k with
              | zero => exact absurd hDk hD
              | succ k =>
                  refine ⟨k, by omega, ?_, ?_⟩
                  · intro j hj
                    rw [hshiftD j, hshiftS j]
                    exact hact (j + 1) (by omega)
                  · rw [hshiftD k]
                    exact hDk
          · intro y
            rw [ihOk y]
            constructor
            · rintro ⟨k, hk, hact, hnD, hSk, hy⟩
              refine ⟨k + 1, by omega, ?_, ?_, ?_, ?_⟩
              · intro j hj
                cases j with
                | zero => exact ⟨hD, hS⟩
                | succ j =>
                    have hj' := hact j (by omega)
                    rw [hshiftD j, hshiftS j] at hj'
                    exact hj'
              · rw [← hshiftD k]
                exact hnD
              · rw [← hshiftS k]
                exact hSk
              · exact hy.trans (newtonSeq_shift f df x0 (k + 1))
            · rintro ⟨k, hk, hact, hnD, hSk, hy⟩
              cases k with
              | zero => exact absurd hSk hS
              | succ k =>
                  refine ⟨k, by omega, ?_, ?_, ?_, ?_⟩
                  · intro j hj
                    rw [hshiftD j, hshiftS j]
                    exact hact (j + 1) (by omega)
                  · rw [hshiftD k]
                    exact hnD
                  · rw [hshiftS k]
                    exact hSk
                  · exact hy.trans (newtonSeq_shift f df x0 (k + 1)).symm
          · rw [ihN]
            constructor
            · intro hall k hk
              cases k with
              | zero => exact ⟨hD, hS⟩
              | succ k =>
                  have hk' := hall k (by omega)
                  rw [hshiftD k, hshiftS k] at hk'
                  exact hk'
            · intro hall k hk
              rw [hshiftD k, hshiftS k]
              exact hall (k + 1) (by omega)

/-- Claim C2: `findRoot(x0, tolerance, maxIterations)` iterates
`x_new = x - f(x)/f'(x)` with the analytic derivative and has exactly three
outcomes — DerivativeTooSmall at the first reached iteration with
`|f'(x_k)| < tolerance`; otherwise the value `x_{k+1}` at the first reached
iteration with `|x_{k+1} - x_k| < tolerance`; otherwise DidNotConverge once
the iteration budget is spent (the statement holds for every budget, in
particular for every `maxIterations ≥ 1` as claimed). -/
theorem findRoot_outcomes (F : MathFunction) (x0 tol : ℝ) (m : ℤ) :
    (F.findRoot x0 tol m = RootResult.derivativeTooSmall ↔
      ∃ k, k < m.toNat ∧
        (∀ j, j < k → ¬ derivSmallAt F.evaluate F.derivative.evaluate tol x0 j ∧
          ¬ stepSmallAt F.evaluate F.derivative.evaluate tol x0 j) ∧
        derivSmallAt F.evaluate F.derivative.evaluate tol x0 k) ∧
    (∀ y, F.findRoot x0 tol m = RootResult.ok y ↔
      ∃ k, k < m.toNat ∧
        (∀ j, j < k → ¬ derivSmallAt F.evaluate F.derivative.evaluate tol x0 j ∧
          ¬ stepSmallAt F.evaluate F.derivative.evaluate tol x0 j) ∧
        ¬ derivSmallAt F.evaluate F.derivative.evaluate tol x0 k ∧
        stepSmallAt F.evaluate F.derivative.evaluate tol x0 k ∧
        y = newtonSeq F.evaluate F.derivative.evaluate x0 (k + 1)) ∧
    (F.findRoot x0 tol m = RootResult.didNotConverge ↔
      ∀ k, k < m.toNat → ¬ derivSmallAt F.evaluate F.derivative.evaluate tol x0 k ∧
        ¬ stepSmallAt F.evaluate F.derivative.evaluate tol x0 k) :=
  findRootAux_outcomes F.evaluate F.derivative.evaluate tol m.toNat x0

/-- Claim C1: `derivative()` returns exactly the tree prescribed by the rule
table, for every node kind: Constant(v) ↦ Constant(0); Variable ↦ Constant(1);
Sum(l,r) ↦ Sum(d(l), d(r)); Product(l,r) ↦ Sum(Product(d(l), clone(r)),
Product(clone(l), d(r))); Power(b,e) ↦ Product(Product(Constant(e),
Power(clone(b), e-1)), d(b)); Sin(a) ↦ Product(Cos(clone(a)), d(a));
Cos(a) ↦ Product(Product(Constant(-1), Sin(clone(a))), d(a));
Exp(a) ↦ Product(Exp(clone(a)), d(a));
Ln(a) ↦ Product(d(a), Power(clone(a), -1)). -/
theorem derivative_rule_table (v e : ℝ) (l r b a : MathExpression) :
    derivative (Constant v) = Constant 0 ∧
    derivative Variable = Constant 1 ∧
    derivative (Sum l r) = Sum (derivative l) (derivative r) ∧
    derivative (Product l r) =
      Sum (Product (derivative l) (clone r)) (Product (clone l) (derivative r)) ∧
    derivative (Power b e) =
      Product (Product (Constant e) (Power (clone b) (e - 1))) (derivative b) ∧
    derivative (Sin a) = Product (Cos (clone a)) (derivative a) ∧
    derivative (Cos a) =
      Product (Product (Constant (-1)) (Sin (clone a))) (derivative a) ∧
    derivative (Exp a) = Product (Exp (clone a)) (derivative a) ∧
    derivative (Ln a) = Product (derivative a) (Power (clone a) (-1)) :=
  ⟨rfl, rfl, rfl, rfl, rfl, rfl, rfl, rfl, rfl⟩

/-- Claim C8: the clone round-trip is observationally the identity: for every
expression tree, the clone renders to the same string (for any rendering of
numeric literals) and evaluates to the same value at every input. -/
theorem clone_roundtrip (ρ : ℝ → String) (e : MathExpression) (x : ℝ) :
    render ρ (clone e) = render ρ e ∧ evaluate (clone e) x = evaluate e x := by
  rw [clone_eq]
  exact ⟨rfl, rfl⟩

/-- The derivative loop of `nthDerivative` applies `derivative` exactly its
argument's number of times. -/
theorem derivLoop_eq_iterate (k : ℕ) (e : MathExpression) :
    MathFunction.derivLoop k e = derivative^[k] e := by
  induction k generalizing e with
  | zero => rfl
  | succ k ih =>
      rw [MathFunction.derivLoop, ih, Function.iterate_succ_apply]

/-- The name loop of `nthDerivative` appends exactly its argument's number of
apostrophe characters. -/
theorem tickLoop_eq_append (s : String) (k : ℕ) :
    MathFunction.tickLoop s k = s ++ String.mk (List.replicate k (Char.ofNat 39)) := by
  induction k generalizing s with
  | zero =>
      apply String.ext
      simp [MathFunction.tickLoop]
  | succ k ih =>
      rw [MathFunction.tickLoop, ih]
      apply String.ext
      simp [tick, String.singleton, List.replicate_succ]

/-- Claim C5: `nthDerivative(n)` raises InvalidArgument exactly when `n < 0`;
`nthDerivative(0)` returns a duplicated Function with the unchanged name; and
for `n = k+1 ≥ 1` it returns the expression differentiated `k+1` times in
sequence under the original name with exactly `k+1` derivative markers
appended. -/
theorem nthDerivative_spec (F : MathFunction) (n : ℤ) (k : ℕ) :
    ((∃ msg, F.nthDerivative n = Except.error msg) ↔ n < 0) ∧
    F.nthDerivative 0 = Except.ok ⟨F.expression.clone, F.name⟩ ∧
    F.nthDerivative ((k : ℤ) + 1) =
      Except.ok ⟨derivative^[k + 1] F.expression,
        F.name ++ String.mk (List.replicate (k + 1) (Char.ofNat 39))⟩ := by
  refine ⟨?_, ?_, ?_⟩
  · constructor
    · rintro ⟨msg, hmsg⟩
      by_contra hn
      rw [MathFunction.nthDerivative, if_neg hn] at hmsg
      by_cases h0 : n = 0
      · rw [if_pos h0] at hmsg
        exact Except.noConfusion hmsg
      · rw [if_neg h0] at hmsg
        exact Except.noConfusion hmsg
    · intro hn
      exact ⟨_, by rw [MathFunction.nthDerivative, if_pos hn]⟩
  · rfl
  · have hneg : ¬((k : ℤ) + 1 < 0) := by omega
    have hzero : ¬((k : ℤ) + 1 = 0) := by omega
    have htoNat : ((k : ℤ) + 1).toNat = k + 1 := by omega
    rw [MathFunction.nthDerivative, if_neg hneg, if_neg hzero, htoNat,
      Nat.add_sub_cancel, derivLoop_eq_iterate, tickLoop_eq_append,
      Function.iterate_succ_apply]

/-- The summation loop of `integrate` computes the closed-form sample sum
`Σ_{i=1}^{n} f(a + i h)`. -/
theorem trapLoop_eq_sum (f : ℝ → ℝ) (a h : ℝ) (n : ℕ) :
    MathFunction.trapLoop f a h n = ∑ i ∈ Finset.Ico 1 (n + 1), f (a + (i : ℝ) * h) := by
  induction n with
  | zero => simp [MathFunction.trapLoop]
  | succ n ih =>
      rw [MathFunction.trapLoop, ih, Finset.sum_Ico_succ_top (by omega : 1 ≤ n + 1)]

/-- Claim C3: `integrate(a, b, steps)` raises InvalidArgument exactly when
`steps <= 0`, and otherwise returns `sum * h` where `h = (b-a)/steps` and
`sum = 0.5*(f(a)+f(b)) + Σ_{i=1}^{steps-1} f(a + i*h)`. -/
theorem integrate_spec (F : MathFunction) (a b : ℝ) (steps : ℤ) :
    F.integrate a b steps =
      if steps ≤ 0 then Except.error "Steps must be positive"
      else Except.ok
        ((0.5 * (F.evaluate a + F.evaluate b)
            + ∑ i ∈ Finset.Ico 1 steps.toNat,
                F.evaluate (a + (i : ℝ) * ((b - a) / (steps : ℝ))))
          * ((b - a) / (steps : ℝ))) := by
  by_cases hs : steps ≤ 0
  · rw [MathFunction.integrate, if_pos hs, if_pos hs]
  · rw [MathFunction.integrate, if_neg hs, if_neg hs, trapLoop_eq_sum]
    have : steps.toNat - 1 + 1 = steps.toNat := by omega
    rw [this]

/-- Generic invariant of the `taylorSeries` loop: entering iteration `i ≥ 1`
with the accumulator holding `(i-1)!`, the remaining iterations produce the
successive derivatives of the running expression evaluated at the point, each
divided by the matching factorial. -/
theorem taylorLoop_inv (point : ℝ) (rem : ℕ) :
    ∀ (i : ℕ) (e : MathExpression), 1 ≤ i →
      MathFunction.taylorLoop point rem i ((i - 1).factorial : ℝ) e =
        List.ofFn (fun j : Fin rem =>
          (derivative^[(j : ℕ)] e).evaluate point / (((i + (j : ℕ)).factorial : ℝ))) := by
  induction rem with
  | zero => intro i e _; simp [MathFunction.taylorLoop]
  | succ rem ih =>
      intro i e hi
      have hfact : ((i - 1).factorial : ℝ) * (i : ℝ) = (i.factorial : ℝ) := by
        obtain ⟨m, rfl⟩ := Nat.exists_eq_add_of_le hi
        push_cast [Nat.add_comm 1 m, Nat.add_sub_cancel, Nat.factorial_succ]
        ring
      rw [MathFunction.taylorLoop, List.ofFn_succ, List.cons_eq_cons]
      simp only [if_pos (by omega : 0 < i), hfact]
      refine ⟨by simp, ?_⟩
      cases rem with
      | zero => simp [MathFunction.taylorLoop]
      | succ r =>
          have hstep : ((i + 1 - 1).factorial : ℝ) = (i.factorial : ℝ) := by simp
          rw [if_pos (by omega : 0 < r + 1), ← hstep, ih (i + 1) e.derivative (by omega)]
          refine congrArg List.ofFn (funext fun j => ?_)
          simp only [Fin.val_succ, Function.iterate_succ_apply]
          rw [show i + 1 + (j : ℕ) = i + ((j : ℕ) + 1) from by omega]

/-- Claim C4: `taylorSeries(point, terms)` returns a sequence of length
`terms` whose `i`-th entry is the `i`-th successive derivative of the
function evaluated at `point`, divided by `i!` (with `0! = 1`). -/
theorem taylorSeries_spec (F : MathFunction) (point : ℝ) (terms : ℤ) :
    F.taylorSeries point terms =
      List.ofFn (fun i : Fin terms.toNat =>
        (derivative^[(i : ℕ)] F.expression).evaluate point / (((i : ℕ).factorial : ℝ))) := by
  rw [MathFunction.taylorSeries]
  rcases hT : terms.toNat with _ | S
  · simp [MathFunction.taylorLoop]
  · rw [MathFunction.taylorLoop, List.ofFn_succ, List.cons_eq_cons]
    simp only [if_neg (by omega : ¬ 0 < 0), Nat.zero_add]
    refine ⟨by simp, ?_⟩
    cases S with
    | zero => simp [MathFunction.taylorLoop]
    | succ r =>
        have h1 : (1 : ℝ) = (((1 : ℕ) - 1).factorial : ℝ) := by simp
        rw [if_pos (by omega : 0 < r + 1), h1,
          taylorLoop_inv point (r + 1) 1 F.expression.derivative (by omega)]
        refine congrArg List.ofFn (funext fun j => ?_)
        simp only [Fin.val_succ, Function.iterate_succ_apply]
        rw [show 1 + (j : ℕ) = (j : ℕ) + 1 from by omega]

/-- On the claim that `tabulate(start, end, 1)` surfaces InvalidArgument: the
source has no guard, so the call returns a one-element tabulation instead of
failing (the degenerate step is an unguarded division by `points - 1 = 0`).
Concretely, for the constant function 7 on `[0, 1]` with one point, the call
succeeds. -/
theorem tabulate_one_point_counterexample :
    MathFunction.tabulate ⟨MathExpression.Constant 7, "f"⟩ 0 1 1 =
      Except.ok [((0 : ℝ), (7 : ℝ))] := by
  simp only [MathFunction.tabulate, show List.range (1 : ℤ).toNat = [0] from rfl,
    List.map_cons, List.map_nil]
  norm_num [MathFunction.evaluate, MathExpression.evaluate]

/-- Claim C6 (amended): for every Function and every interval,
`tabulate(start, end, 1)` does not surface InvalidArgument (or any failure);
it returns a single-sample tabulation computed with the unguarded degenerate
step. -/
theorem tabulate_one_point (F : MathFunction) (s e : ℝ) :
    ∃ p : ℝ × ℝ, F.tabulate s e 1 = Except.ok [p] :=
  ⟨_, rfl⟩

/-- Claim C10: with `maxIterations <= 0`, `findRoot` raises DidNotConverge
immediately: the loop body never runs, so the function is never evaluated
(the result is DidNotConverge for arbitrary `f` and `f'`), and in particular
neither InvalidArgument nor DerivativeTooSmall occurs. -/
theorem findRoot_nonpositive_budget (F : MathFunction) (x0 tol : ℝ) (m : ℤ)
    (hm : m ≤ 0) :
    F.findRoot x0 tol m = RootResult.didNotConverge ∧
    ∀ f df : ℝ → ℝ, findRootAux f df tol m.toNat x0 = RootResult.didNotConverge := by
  have h0 : m.toNat = 0 := by omega
  constructor
  · rw [MathFunction.findRoot, h0]
    rfl
  · intro f df
    rw [h0]
    rfl

/-- Witness for C10 at the concrete budget `maxIterations = 0`. -/
theorem findRoot_nonpositive_budget_witness :
    (0 : ℤ) ≤ 0 ∧
      MathFunction.findRoot ⟨MathExpression.Constant 1, "f"⟩ 0 1 0 =
        RootResult.didNotConverge :=
  ⟨le_refl 0,
    (findRoot_nonpositive_budget ⟨MathExpression.Constant 1, "f"⟩ 0 1 0 (le_refl 0)).1⟩
